import Mathlib

/-!
Verification of the training/evaluation orchestration core of `cca_zoo/deep.py`
(class `Wrapper`).  Arrays of the source are modelled as lists of rows of
rationals; external collaborators (numpy RNG, torch models, sklearn CCA) are
modelled as explicit parameters (a permutation for the shuffle, injected loss
sequences for the model, an `Ext` record of opaque functions for encoders,
decoders, normalisation and the classical CCA).  Missing Python attributes are
modelled as `Option` fields; reading a missing attribute yields
`Err.attributeError`, mirroring the `AttributeError` the interpreter raises.
-/

namespace CcaZoo

/-- A row of features (one sample of one view). -/
abbrev Vec := List ℚ

/-- A 2-D array: list of rows. -/
abbrev Rows := List Vec

/-- Componentwise subtraction of feature vectors (numpy broadcasting `a - b`). -/
def vsub (a b : Vec) : Vec := List.zipWith (fun x y => x - y) a b

/-- Componentwise addition of feature vectors. -/
def vaddV (a b : Vec) : Vec := List.zipWith (fun x y => x + y) a b

/-- Column sums of a 2-D array (`axis=0` accumulation). -/
def colSum : Rows → Vec
  | [] => []
  | r :: rs => rs.foldl vaddV r

/-- Per-feature mean of a 2-D array, `dataset.mean(axis=0)`. -/
def colMean (rows : Rows) : Vec := (colSum rows).map (fun x => x / (rows.length : ℚ))

/-- `rows - m` with numpy row broadcasting: subtract `m` from every row. -/
def centerRows (rows : Rows) (m : Vec) : Rows := rows.map (fun r => vsub r m)

/-- Fancy indexing `d[inds]`: select the rows of `d` at the listed indices. -/
def selectRows (d : Rows) (inds : List Nat) : Rows := inds.filterMap (fun i => d.get? i)

/-- `int(round(0.8 * num_subjects, 0))`: the train/validation split point.
`4*S/5` is never a half-integer, so round-half-even and round-half-up agree. -/
def splitIndex (S : Nat) : Nat := (round ((4 * S : ℚ) / 5)).toNat

/-- First segment of `np.split(all_inds, [int(round(0.8*S, 0))])`: train indices. -/
def train_inds (perm : List Nat) (S : Nat) : List Nat := perm.take (splitIndex S)

/-- Second segment of the split: validation indices. -/
def val_inds (perm : List Nat) (S : Nat) : List Nat := perm.drop (splitIndex S)

/-- The batch-size adjustment loop
`while num_subjects % self.batch_size < self.latent_dims: self.batch_size += 1`,
with explicit fuel.  `none` means the loop has not terminated within `fuel`
iterations (the source has no guard at all). -/
def adjustBatchSize : Nat → Nat → Nat → Nat → Option Nat
  | 0, _, _, _ => none
  | fuel + 1, S, ld, b => if S % b < ld then adjustBatchSize fuel S ld (b + 1) else some b

/-- Attributes written by `Wrapper.process_training_data`. -/
structure PTDResult where
  dataset_means : List Vec
  dataset_list_train : List Rows
  dataset_list_val : List Rows
  batch_size : Option Nat
deriving DecidableEq

/-- `Wrapper.process_training_data`.  `perm` is the result of
`np.random.shuffle` on `np.arange(num_subjects)` (external RNG).  Note the
source computes and stores the train-subset mean (`dataset[train_inds].mean`)
but subtracts the full-dataset mean `dataset.mean(axis=0)` from both subsets.
The fuel `S + 2` is enough for the batch loop whenever it terminates at all. -/
def process_training_data (views : List Rows) (perm : List Nat)
    (latent_dims batch_size : Nat) : PTDResult :=
  let num_subjects := (views.headD []).length
  let tr := train_inds perm num_subjects
  let va := val_inds perm num_subjects
  { dataset_means := views.map (fun dataset => colMean (selectRows dataset tr)),
    dataset_list_train := views.map (fun dataset =>
      centerRows (selectRows dataset tr) (colMean dataset)),
    dataset_list_val := views.map (fun dataset =>
      centerRows (selectRows dataset va) (colMean dataset)),
    batch_size := adjustBatchSize (num_subjects + 2) num_subjects latent_dims batch_size }

/-! ### Batch-size loop lemmas -/

/-- If the sample count is below `latent_dims`, the adjustment loop never
terminates: every remainder `S % b ≤ S < ld` keeps the loop condition true. -/
theorem adjustBatchSize_none_of_lt (S ld : Nat) (h : S < ld) :
    ∀ fuel b, adjustBatchSize fuel S ld b = none := by
  intro fuel
  induction fuel with
  | zero => intro b; rfl
  | succ n ih =>
    intro b
    have hb : S % b ≤ S := Nat.mod_le S b
    have hcond : S % b < ld := lt_of_le_of_lt hb h
    simp [adjustBatchSize, hcond, ih]

/-- If the loop returns, the result satisfies the loop's negated condition and
is at least the starting batch size. -/
theorem adjustBatchSize_spec :
    ∀ fuel S ld b0 b, adjustBatchSize fuel S ld b0 = some b → ld ≤ S % b ∧ b0 ≤ b := by
  intro fuel
  induction fuel with
  | zero => intro S ld b0 b h; simp [adjustBatchSize] at h
  | succ n ih =>
    intro S ld b0 b h
    by_cases hc : S % b0 < ld
    · simp only [adjustBatchSize, hc, if_true] at h
      obtain ⟨h1, h2⟩ := ih S ld (b0 + 1) b h
      exact ⟨h1, le_trans (Nat.le_succ b0) h2⟩
    · simp only [adjustBatchSize, hc, if_false] at h
      cases h
      exact ⟨Nat.le_of_not_lt hc, le_refl b0⟩

/-- C1: the claim says the per-view centering mean is the train-subset mean and
that it is subtracted from both subsets.  Counter-evaluation: with one view
`[[0],[0],[0],[0],[10]]` (5 samples, 1 feature) and the identity permutation,
the train subset is rows 0-3 (train mean `[0]`, which the code stores in
`dataset_means`), but the validation row `[10]` is centered with the
full-dataset mean `[2]`, producing `[8]` instead of the train-mean-centered
`[10]`. -/
theorem centering_uses_full_mean_not_train_mean :
    (process_training_data [[[0], [0], [0], [0], [10]]] [0, 1, 2, 3, 4] 2 16).dataset_means
        = [[0]] ∧
    (process_training_data [[[0], [0], [0], [0], [10]]] [0, 1, 2, 3, 4] 2 16).dataset_list_val
        = [[[8]]] ∧
    centerRows [[10]] [0] = [[10]] ∧
    ([[(8 : ℚ)]] : Rows) ≠ [[10]] := by
  have h4 : splitIndex 5 = 4 := by
    norm_num [splitIndex, round_eq]
    rfl
  refine ⟨?_, ?_, ?_, by decide⟩
  · simp [process_training_data, train_inds, h4, selectRows, colMean, colSum, vaddV]
  · simp [process_training_data, val_inds, h4, selectRows, colMean, colSum, vaddV,
      centerRows, vsub]
    norm_num
  · simp [centerRows, vsub]

/-- C5: the batch-size loop starts at the configured batch size and increments
by 1 until `S % batch_size >= latent_dims`; the claim says the degenerate case
(e.g. fewer samples than latent dimensions) reports a configuration error.  In
the source the `while` loop has no guard: for `S = 1`, `latent_dims = 2`,
`batch_size = 16` it never terminates and reports nothing, for any fuel bound. -/
theorem batch_adjust_no_guard :
    (process_training_data [[[5]]] [0] 2 16).batch_size = none ∧
    ∀ fuel b0, adjustBatchSize fuel 1 2 b0 = none := by
  constructor
  · decide
  · exact adjustBatchSize_none_of_lt 1 2 (by decide)

/-- C6: whenever the batch-size adjustment succeeds, the effective batch size
after `process_training_data` satisfies `S % batch_size >= latent_dims` and is
at least the requested batch size. -/
theorem effective_batch_size_invariant (views : List Rows) (perm : List Nat)
    (ld b0 b : Nat)
    (h : (process_training_data views perm ld b0).batch_size = some b) :
    ld ≤ (views.headD []).length % b ∧ b0 ≤ b := by
  exact adjustBatchSize_spec _ _ _ _ _ h

/-- Witness for C6 at the spec's scenario shape: one view with 5 samples,
`latent_dims = 2`, requested batch size 16 (5 % 16 = 5 ≥ 2, kept as is). -/
theorem effective_batch_size_invariant_witness : 2 ≤ 5 % 16 ∧ 16 ≤ 16 :=
  effective_batch_size_invariant [[[0], [0], [0], [0], [10]]] [0, 1, 2, 3, 4] 2 16 16 (by decide)

/-! ### Partition invariants -/

/-- C7: for every permutation of the row indices of an `S`-sample input, the
split at `round(0.8 * S)` (first segment train, remainder validation) yields
train and validation index sets that are disjoint, cover all row indices, and
have sizes summing to `S`. -/
theorem split_partition_invariants (S : Nat) (perm : List Nat)
    (h : perm.Perm (List.range S)) :
    ((train_inds perm S).length + (val_inds perm S).length = S) ∧
    (∀ i, i ∈ train_inds perm S → i ∉ val_inds perm S) ∧
    (∀ i, (i ∈ train_inds perm S ∨ i ∈ val_inds perm S) ↔ i < S) := by
  have hlen : perm.length = S := by
    have := h.length_eq
    simpa using this
  have hnd : perm.Nodup := h.nodup_iff.mpr (List.nodup_range S)
  refine ⟨?_, ?_, ?_⟩
  · simp [train_inds, val_inds, hlen]
    omega
  · intro i hi hv
    exact List.disjoint_take_drop hnd (le_refl (splitIndex S)) hi hv
  · intro i
    have hmem : i ∈ perm ↔ i < S := by
      rw [h.mem_iff]
      exact List.mem_range
    constructor
    · intro hc
      rcases hc with hc | hc
      · exact hmem.mp (List.mem_of_mem_take hc)
      · exact hmem.mp (List.mem_of_mem_drop hc)
    · intro hi
      have : i ∈ perm := hmem.mpr hi
      rw [← List.take_append_drop (splitIndex S) perm] at this
      exact List.mem_append.mp this

/-- Witness for C7: `S = 5`, shuffled indices `[2, 0, 1, 3, 4]`. -/
theorem split_partition_invariants_witness :
    ((train_inds [2, 0, 1, 3, 4] 5).length + (val_inds [2, 0, 1, 3, 4] 5).length = 5) ∧
    (∀ i, i ∈ train_inds [2, 0, 1, 3, 4] 5 → i ∉ val_inds [2, 0, 1, 3, 4] 5) ∧
    (∀ i, (i ∈ train_inds [2, 0, 1, 3, 4] 5 ∨ i ∈ val_inds [2, 0, 1, 3, 4] 5) ↔ i < 5) :=
  split_partition_invariants 5 [2, 0, 1, 3, 4] (by decide)

/-! ### The epoch loop of `Wrapper.fit` (lines 108-142)

The model is external: one call of `train_epoch` performs the epoch's weight
updates, so model parameters are abstracted as the number of completed weight
updates (`model`), with `best` the snapshot `copy.deepcopy(self.model.state_dict())`.
Train/validation losses are injected as functions of the epoch index. -/

/-- The mutable training state of one `fit` call. -/
structure TrainState where
  model : Nat
  best : Nat
  min_val_loss : ℚ
  epochs_no_improve : Nat
  early_stop : Bool
  all_train_loss : List ℚ
  all_val_loss : List ℚ
deriving DecidableEq

/-- State before the first epoch: `best_model` is a copy of the initial model,
`min_val_loss = self.latent_dims`, counter 0, `early_stop = False`. -/
def initTrainState (latent_dims : Nat) : TrainState :=
  { model := 0, best := 0, min_val_loss := (latent_dims : ℚ), epochs_no_improve := 0,
    early_stop := false, all_train_loss := [], all_val_loss := [] }

/-- One iteration of `for epoch in range(self.epoch_num)`: skipped entirely when
`early_stop` is set; otherwise train (`model + 1`), compute the validation loss,
update the best snapshot on strict improvement, else bump the counter and, when
it reaches `patience`, set `early_stop` and load the best snapshot back into the
live model. -/
def epochStep (patience : Nat) (trainLoss valLoss : Nat → ℚ) (epoch : Nat)
    (s : TrainState) : TrainState :=
  if s.early_stop then s
  else
    let model1 := s.model + 1
    let tl := trainLoss epoch
    let vl := valLoss epoch
    if vl < s.min_val_loss then
      { model := model1, best := model1, min_val_loss := vl, epochs_no_improve := 0,
        early_stop := false,
        all_train_loss := s.all_train_loss ++ [tl], all_val_loss := s.all_val_loss ++ [vl] }
    else
      if s.epochs_no_improve + 1 = patience then
        { model := s.best, best := s.best, min_val_loss := s.min_val_loss,
          epochs_no_improve := s.epochs_no_improve + 1, early_stop := true,
          all_train_loss := s.all_train_loss ++ [tl], all_val_loss := s.all_val_loss ++ [vl] }
      else
        { model := model1, best := s.best, min_val_loss := s.min_val_loss,
          epochs_no_improve := s.epochs_no_improve + 1, early_stop := false,
          all_train_loss := s.all_train_loss ++ [tl], all_val_loss := s.all_val_loss ++ [vl] }

/-- State after the first `n` epochs of the loop. -/
def runEpochs (patience : Nat) (trainLoss valLoss : Nat → ℚ) : Nat → TrainState → TrainState
  | 0, s => s
  | n + 1, s => epochStep patience trainLoss valLoss n (runEpochs patience trainLoss valLoss n s)

/-- Improving branch of the epoch body. -/
theorem epochStep_improve (patience : Nat) (tL vL : Nat → ℚ) (n : Nat) (s : TrainState)
    (hs : s.early_stop = false) (h : vL n < s.min_val_loss) :
    epochStep patience tL vL n s
      = { model := s.model + 1, best := s.model + 1, min_val_loss := vL n,
          epochs_no_improve := 0, early_stop := false,
          all_train_loss := s.all_train_loss ++ [tL n],
          all_val_loss := s.all_val_loss ++ [vL n] } := by
  simp only [epochStep]
  rw [if_neg (by simp [hs]), if_pos h]

/-- Non-improving branch that does not hit the patience threshold. -/
theorem epochStep_noimprove (patience : Nat) (tL vL : Nat → ℚ) (n : Nat) (s : TrainState)
    (hs : s.early_stop = false) (h : ¬ vL n < s.min_val_loss)
    (htr : s.epochs_no_improve + 1 ≠ patience) :
    epochStep patience tL vL n s
      = { model := s.model + 1, best := s.best, min_val_loss := s.min_val_loss,
          epochs_no_improve := s.epochs_no_improve + 1, early_stop := false,
          all_train_loss := s.all_train_loss ++ [tL n],
          all_val_loss := s.all_val_loss ++ [vL n] } := by
  simp only [epochStep]
  rw [if_neg (by simp [hs]), if_neg h, if_neg htr]

/-- Non-improving branch that reaches the patience threshold: early stop and
restore the best snapshot into the live model. -/
theorem epochStep_trigger (patience : Nat) (tL vL : Nat → ℚ) (n : Nat) (s : TrainState)
    (hs : s.early_stop = false) (h : ¬ vL n < s.min_val_loss)
    (htr : s.epochs_no_improve + 1 = patience) :
    epochStep patience tL vL n s
      = { model := s.best, best := s.best, min_val_loss := s.min_val_loss,
          epochs_no_improve := s.epochs_no_improve + 1, early_stop := true,
          all_train_loss := s.all_train_loss ++ [tL n],
          all_val_loss := s.all_val_loss ++ [vL n] } := by
  simp only [epochStep]
  rw [if_neg (by simp [hs]), if_neg h, if_pos htr]

/-- Once `early_stop` is set, every later epoch is a no-op. -/
theorem epochStep_of_early_stop (patience : Nat) (tL vL : Nat → ℚ) (n : Nat)
    (s : TrainState) (h : s.early_stop = true) : epochStep patience tL vL n s = s := by
  simp [epochStep, h]

/-- `early_stop` is monotone: a live state after a step was live before it. -/
theorem early_stop_mono (patience : Nat) (tL vL : Nat → ℚ) (n : Nat) (s : TrainState)
    (h : (epochStep patience tL vL n s).early_stop = false) : s.early_stop = false := by
  by_cases hs : s.early_stop
  · rw [epochStep_of_early_stop patience tL vL n s hs] at h
    rw [h] at hs
    exact absurd hs (by simp)
  · simpa using hs

/-- A step that stays live applies exactly the epoch's weight updates. -/
theorem epochStep_model_succ (patience : Nat) (tL vL : Nat → ℚ) (n : Nat) (s : TrainState)
    (hs : s.early_stop = false) (h : (epochStep patience tL vL n s).early_stop = false) :
    (epochStep patience tL vL n s).model = s.model + 1 := by
  by_cases himp : vL n < s.min_val_loss
  · simp [epochStep, hs, himp]
  · by_cases htr : s.epochs_no_improve + 1 = patience
    · exfalso
      simp [epochStep, hs, himp, htr] at h
    · simp [epochStep, hs, himp, htr]

/-- After early stop, the rest of the budget leaves the state untouched. -/
theorem runEpochs_frozen (patience : Nat) (tL vL : Nat → ℚ) (s0 : TrainState) (n : Nat)
    (h : (runEpochs patience tL vL n s0).early_stop = true) :
    ∀ m, n ≤ m → runEpochs patience tL vL m s0 = runEpochs patience tL vL n s0 := by
  intro m hm
  induction m with
  | zero =>
    have : n = 0 := Nat.le_zero.mp hm
    rw [this]
  | succ k ih =>
    by_cases hk : n ≤ k
    · have hk2 := ih hk
      show epochStep patience tL vL k (runEpochs patience tL vL k s0) = _
      rw [hk2, epochStep_of_early_stop patience tL vL k _ h]
    · have : n = k + 1 := by omega
      rw [this]

/-- C4: if the epoch budget is exhausted without early stopping, the live model
holds exactly the parameters produced by the last epoch (`epoch_num` completed
weight updates from the initial model) — the best-validation snapshot is not
restored; moreover any step that does not apply the epoch's weight updates to a
live state is precisely the early-stop transition, which restores the best
snapshot. -/
theorem converged_keeps_last_epoch_model (patience epoch_num ld : Nat) (tL vL : Nat → ℚ)
    (h : (runEpochs patience tL vL epoch_num (initTrainState ld)).early_stop = false) :
    (runEpochs patience tL vL epoch_num (initTrainState ld)).model = epoch_num ∧
    (∀ n s, s.early_stop = false → (epochStep patience tL vL n s).model ≠ s.model + 1 →
      (epochStep patience tL vL n s).early_stop = true ∧
      (epochStep patience tL vL n s).model = s.best) := by
  constructor
  · induction epoch_num with
    | zero => rfl
    | succ k ih =>
      have hk : (runEpochs patience tL vL k (initTrainState ld)).early_stop = false :=
        early_stop_mono patience tL vL k _ h
      have hmodel := ih hk
      have hstep := epochStep_model_succ patience tL vL k
        (runEpochs patience tL vL k (initTrainState ld)) hk h
      show (epochStep patience tL vL k (runEpochs patience tL vL k (initTrainState ld))).model
          = k + 1
      rw [hstep, hmodel]
  · intro n s hs hmod
    by_cases himp : vL n < s.min_val_loss
    · exfalso
      apply hmod
      simp [epochStep, hs, himp]
    · by_cases htr : s.epochs_no_improve + 1 = patience
      · constructor <;> simp [epochStep, hs, himp, htr]
      · exfalso
        apply hmod
        simp [epochStep, hs, himp, htr]

/-- Witness for C4: patience 10, three epochs of constant (non-improving)
validation loss 5 against the sentinel `latent_dims = 2`; the loop never early
stops and the final model is the third epoch's product. -/
theorem converged_keeps_last_epoch_model_witness :
    (runEpochs 10 (fun _ => 3) (fun _ => 5) 3 (initTrainState 2)).model = 3 ∧
    (∀ n s, s.early_stop = false →
      (epochStep 10 (fun _ => 3) (fun _ => 5) n s).model ≠ s.model + 1 →
      (epochStep 10 (fun _ => 3) (fun _ => 5) n s).early_stop = true ∧
      (epochStep 10 (fun _ => 3) (fun _ => 5) n s).model = s.best) :=
  converged_keeps_last_epoch_model 10 3 2 (fun _ => 3) (fun _ => 5) (by norm_num [runEpochs,
    epochStep, initTrainState])

/-- During a streak of non-improving epochs (shorter than `patience`), the
counter counts the streak, the best snapshot and minimum are unchanged, and
training keeps updating the live model. -/
theorem noImprove_run (patience : Nat) (tL vL : Nat → ℚ) (s0 : TrainState) (e : Nat)
    (hni0 : (runEpochs patience tL vL (e + 1) s0).epochs_no_improve = 0)
    (hes0 : (runEpochs patience tL vL (e + 1) s0).early_stop = false)
    (hni : ∀ k, e + 1 ≤ k → k ≤ e + patience →
      ¬ (vL k < (runEpochs patience tL vL (e + 1) s0).min_val_loss)) :
    ∀ j, j < patience →
      (runEpochs patience tL vL (e + 1 + j) s0).early_stop = false ∧
      (runEpochs patience tL vL (e + 1 + j) s0).epochs_no_improve = j ∧
      (runEpochs patience tL vL (e + 1 + j) s0).min_val_loss
        = (runEpochs patience tL vL (e + 1) s0).min_val_loss ∧
      (runEpochs patience tL vL (e + 1 + j) s0).best
        = (runEpochs patience tL vL (e + 1) s0).best ∧
      (runEpochs patience tL vL (e + 1 + j) s0).model
        = (runEpochs patience tL vL (e + 1) s0).model + j := by
  intro j
  induction j with
  | zero =>
    intro _
    exact ⟨hes0, hni0, rfl, rfl, rfl⟩
  | succ i ih =>
    intro hlt
    have hi : i < patience := Nat.lt_of_succ_lt hlt
    obtain ⟨h1, h2, h3, h4, h5⟩ := ih hi
    have hk : ¬ (vL (e + 1 + i) < (runEpochs patience tL vL (e + 1 + i) s0).min_val_loss) := by
      rw [h3]
      exact hni (e + 1 + i) (by omega) (by omega)
    have hne : (runEpochs patience tL vL (e + 1 + i) s0).epochs_no_improve + 1 ≠ patience := by
      rw [h2]
      omega
    have hstep : runEpochs patience tL vL (e + 1 + (i + 1)) s0
        = epochStep patience tL vL (e + 1 + i) (runEpochs patience tL vL (e + 1 + i) s0) := by
      have : e + 1 + (i + 1) = (e + 1 + i) + 1 := by omega
      rw [this]
      rfl
    rw [hstep, epochStep_noimprove patience tL vL (e + 1 + i) _ h1 hk hne]
    refine ⟨rfl, ?_, ?_, ?_, ?_⟩ <;> simp [h2, h3, h4, h5] <;> omega

/-- C3: if epoch `e` is an improving epoch (counter reset, still live) and the
validation losses of epochs `e+1 .. e+patience` never beat the minimum reached
at `e`, then the loop is still live after epoch `e+patience-1`, transitions to
early stop exactly at epoch `e + patience`, restores into the live model the
best snapshot — which is the model produced by improving epoch `e` — and runs
no further training epochs for the rest of the epoch budget. -/
theorem early_stopping_epoch (patience epoch_num e : Nat) (ld : Nat) (tL vL : Nat → ℚ)
    (hp : 1 ≤ patience)
    (hni0 : (runEpochs patience tL vL (e + 1) (initTrainState ld)).epochs_no_improve = 0)
    (hes0 : (runEpochs patience tL vL (e + 1) (initTrainState ld)).early_stop = false)
    (hni : ∀ k, e + 1 ≤ k → k ≤ e + patience →
      ¬ (vL k < (runEpochs patience tL vL (e + 1) (initTrainState ld)).min_val_loss))
    (hbudget : e + patience < epoch_num) :
    (runEpochs patience tL vL (e + patience) (initTrainState ld)).early_stop = false ∧
    (runEpochs patience tL vL (e + patience + 1) (initTrainState ld)).early_stop = true ∧
    (runEpochs patience tL vL (e + patience + 1) (initTrainState ld)).model
      = (runEpochs patience tL vL (e + 1) (initTrainState ld)).best ∧
    (runEpochs patience tL vL (e + 1) (initTrainState ld)).best
      = (runEpochs patience tL vL (e + 1) (initTrainState ld)).model ∧
    runEpochs patience tL vL epoch_num (initTrainState ld)
      = runEpochs patience tL vL (e + patience + 1) (initTrainState ld) := by
  set s0 := initTrainState ld with hs0
  obtain ⟨h1, h2, h3, h4, _⟩ :=
    noImprove_run patience tL vL s0 e hni0 hes0 hni (patience - 1) (by omega)
  have hep : e + 1 + (patience - 1) = e + patience := by omega
  rw [hep] at h1 h2 h3 h4
  have hk : ¬ (vL (e + patience) < (runEpochs patience tL vL (e + patience) s0).min_val_loss) := by
    rw [h3]
    exact hni (e + patience) (by omega) (by omega)
  have htr : (runEpochs patience tL vL (e + patience) s0).epochs_no_improve + 1 = patience := by
    rw [h2]
    omega
  have hstep : runEpochs patience tL vL (e + patience + 1) s0
      = epochStep patience tL vL (e + patience) (runEpochs patience tL vL (e + patience) s0) :=
    rfl
  have hfin_es : (runEpochs patience tL vL (e + patience + 1) s0).early_stop = true := by
    rw [hstep, epochStep_trigger patience tL vL (e + patience) _ h1 hk htr]
  have hfin_model : (runEpochs patience tL vL (e + patience + 1) s0).model
      = (runEpochs patience tL vL (e + 1) s0).best := by
    rw [hstep, epochStep_trigger patience tL vL (e + patience) _ h1 hk htr]
    exact h4
  have hsnap : (runEpochs patience tL vL (e + 1) s0).best
      = (runEpochs patience tL vL (e + 1) s0).model := by
    have hstep0 : runEpochs patience tL vL (e + 1) s0
        = epochStep patience tL vL e (runEpochs patience tL vL e s0) := rfl
    have hlive : (runEpochs patience tL vL e s0).early_stop = false := by
      apply early_stop_mono patience tL vL e
      rw [← hstep0]
      exact hes0
    by_cases himp : vL e < (runEpochs patience tL vL e s0).min_val_loss
    · rw [hstep0, epochStep_improve patience tL vL e _ hlive himp]
    · exfalso
      by_cases htr0 : (runEpochs patience tL vL e s0).epochs_no_improve + 1 = patience
      · have : (runEpochs patience tL vL (e + 1) s0).early_stop = true := by
          rw [hstep0, epochStep_trigger patience tL vL e _ hlive himp htr0]
        rw [this] at hes0
        exact absurd hes0 (by simp)
      · have : (runEpochs patience tL vL (e + 1) s0).epochs_no_improve
            = (runEpochs patience tL vL e s0).epochs_no_improve + 1 := by
          rw [hstep0, epochStep_noimprove patience tL vL e _ hlive himp htr0]
        rw [this] at hni0
        exact absurd hni0 (by simp)
  refine ⟨h1, hfin_es, hfin_model, hsnap, ?_⟩
  exact runEpochs_frozen patience tL vL s0 (e + patience + 1) hfin_es epoch_num (by omega)

/-- Witness for C3: sentinel `latent_dims = 2`, validation losses `1, 5, 5, ...`
(improvement only at epoch 0), patience 2, budget 5: the loop is live after
epoch 1, early-stops exactly at epoch `0 + 2 = 2`, restores the snapshot taken
at epoch 0, and is frozen for the remaining epochs. -/
theorem early_stopping_epoch_witness :
    (runEpochs 2 (fun _ => 3) (fun k => if k = 0 then 1 else 5) 2 (initTrainState 2)).early_stop
      = false ∧
    (runEpochs 2 (fun _ => 3) (fun k => if k = 0 then 1 else 5) 3 (initTrainState 2)).early_stop
      = true ∧
    (runEpochs 2 (fun _ => 3) (fun k => if k = 0 then 1 else 5) 3 (initTrainState 2)).model
      = (runEpochs 2 (fun _ => 3) (fun k => if k = 0 then 1 else 5) 1 (initTrainState 2)).best ∧
    (runEpochs 2 (fun _ => 3) (fun k => if k = 0 then 1 else 5) 1 (initTrainState 2)).best
      = (runEpochs 2 (fun _ => 3) (fun k => if k = 0 then 1 else 5) 1 (initTrainState 2)).model ∧
    runEpochs 2 (fun _ => 3) (fun k => if k = 0 then 1 else 5) 5 (initTrainState 2)
      = runEpochs 2 (fun _ => 3) (fun k => if k = 0 then 1 else 5) 3 (initTrainState 2) :=
  early_stopping_epoch 2 5 0 2 (fun _ => 3) (fun k => if k = 0 then 1 else 5)
    (by norm_num)
    (by norm_num [runEpochs, epochStep, initTrainState])
    (by norm_num [runEpochs, epochStep, initTrainState])
    (by
      intro k h1 h2
      interval_cases k <;> norm_num [runEpochs, epochStep, initTrainState])
    (by norm_num)

/-! ### The `Wrapper` object

Attributes that Python creates only at assignment time are `Option` fields
initialised to `none`; reading a missing one raises `AttributeError`.  The
torch models, numpy normalisation and the sklearn `CCA` object are external
collaborators, collected in `Ext` as opaque row-level functions. -/

/-- Supported `method` strings. -/
inductive Method
  | DCCAE
  | DVCCA
  | DGCCA
deriving DecidableEq

/-- Python exceptions the orchestration code can raise. -/
inductive Err
  | attributeError
  | unboundLocalError
  | valueError
  | typeError
deriving DecidableEq

/-- Latent codes: one latent row per sample. -/
abbrev Lat := List Vec

/-- External collaborators: per-row encoders/decoders of the fitted model, the
model's forward reconstructions, numpy's column-wise L2 normalisation, the
sklearn CCA fit (returning the fitted transform) and the per-dimension
correlation report `np.diag(np.corrcoef(...)[:d, d:])`. -/
structure Ext where
  enc1 : Vec → Vec
  enc2 : Vec → Vec
  dec1 : Vec → Vec
  dec2 : Vec → Vec
  reconX : Vec → Vec → Vec
  reconY : Vec → Vec → Vec
  colNorm : Lat → Lat
  ccaFit : Lat → Lat → (Lat → Lat → Lat × Lat)
  corrDiag : Lat → Lat → List ℚ

/-- The attributes of a `Wrapper` instance. -/
structure WrapperState where
  latent_dims : Nat
  batch_size : Nat
  patience : Nat
  epoch_num : Nat
  method : Method
  both_encoders : Bool
  priv : Bool
  dataset_means : Option (List Vec) := none
  dataset_list_train : Option (List Rows) := none
  dataset_list_val : Option (List Rows) := none
  model : Option Nat := none
  cca : Option (Lat → Lat → Lat × Lat) := none
  X_mean : Option Vec := none
  Y_mean : Option Vec := none
  train_correlations : Option (List ℚ) := none

/-- `Wrapper.__init__`: configuration only; no data attribute exists yet
(in particular neither `X_mean` nor `Y_mean` is ever created, here or later). -/
def wrapperInit (latent_dims batch_size patience epoch_num : Nat) (method : Method)
    (both_encoders priv : Bool) : WrapperState :=
  { latent_dims := latent_dims, batch_size := batch_size, patience := patience,
    epoch_num := epoch_num, method := method, both_encoders := both_encoders, priv := priv }

/-- `process_training_data` as an attribute update; `none` when the batch-size
loop diverges (the call never returns). -/
def processTrainingDataS (W : WrapperState) (perm : List Nat) (views : List Rows) :
    Option WrapperState :=
  let r := process_training_data views perm W.latent_dims W.batch_size
  r.batch_size.map (fun b =>
    { W with dataset_means := some r.dataset_means,
             dataset_list_train := some r.dataset_list_train,
             dataset_list_val := some r.dataset_list_val,
             batch_size := b })

/-- Tail of `predict_corr` after the latent codes are collected: fit mode
creates and stores a fresh CCA alignment, apply mode reads `self.cca`
(raising `AttributeError` when the alignment was never fit). -/
def corrStep (ext : Ext) (W : WrapperState) (z_x z_y : Lat) (train : Bool) :
    Except Err (Option (List ℚ) × WrapperState) :=
  if train then
    let fitted := ext.ccaFit z_x z_y
    let p := fitted z_x z_y
    .ok (some (ext.corrDiag p.1 p.2), { W with cca := some fitted })
  else
    match W.cca with
    | none => .error .attributeError
    | some fitted =>
      let p := fitted z_x z_y
      .ok (some (ext.corrDiag p.1 p.2), W)

/-- `Wrapper.predict_corr`.  Line 174 centers the supplied views with the
stored per-view means into `dataset_list_test`, but line 175 builds the test
dataset from `self.dataset_list_train`, so `dataset_list_test` is dead: the
latent codes always come from the stored training data. -/
def predict_corr (ext : Ext) (W : WrapperState) (args : List Rows) (train : Bool) :
    Except Err (Option (List ℚ) × WrapperState) :=
  match W.dataset_means with
  | none => .error .attributeError
  | some means =>
    let dataset_list_test := List.zipWith (fun arg m => centerRows arg m) args means
    match W.dataset_list_train with
    | none => .error .attributeError
    | some tr =>
      match tr with
      | v1 :: v2 :: _ =>
        match W.method with
        | .DCCAE => corrStep ext W (v1.map ext.enc1) (v2.map ext.enc2) train
        | .DVCCA =>
          if W.both_encoders then
            corrStep ext W (v1.map ext.enc1) (v2.map ext.enc2) train
          else
            .ok (none, W)
        | .DGCCA => .error .unboundLocalError
      | _ => .error .valueError

/-- C2's counter-evaluation: in apply mode the supplied views only feed the
dead `dataset_list_test`, so the result is the same for any two supplied view
lists — the latent codes are not computed from the supplied views. -/
theorem predict_corr_apply_ignores_supplied_views (ext : Ext) (W : WrapperState)
    (A B : List Rows) :
    predict_corr ext W A false = predict_corr ext W B false := by
  cases W.dataset_means <;> rfl

/-- C9: requesting the correlation apply path before any fit of the alignment
(`self.cca` never assigned) raises an error instead of returning a result. -/
theorem apply_before_fit_errors (ext : Ext) (W : WrapperState) (args : List Rows)
    (hm : W.method = Method.DCCAE) (hc : W.cca = none) :
    ∃ err, predict_corr ext W args false = .error err := by
  unfold predict_corr
  cases hdm : W.dataset_means with
  | none => exact ⟨.attributeError, rfl⟩
  | some means =>
    cases hdt : W.dataset_list_train with
    | none => exact ⟨.attributeError, rfl⟩
    | some tr =>
      match tr with
      | [] => exact ⟨.valueError, rfl⟩
      | [v1] => exact ⟨.valueError, rfl⟩
      | v1 :: v2 :: rest =>
        rw [hm]
        refine ⟨.attributeError, ?_⟩
        simp only [corrStep, hc]
        rfl

/-- Witness for C9: a freshly configured DCCAE wrapper whose training-data
attributes exist but whose alignment was never fit. -/
theorem apply_before_fit_errors_witness :
    ∃ err, predict_corr
      { enc1 := id, enc2 := id, dec1 := id, dec2 := id,
        reconX := fun x _ => x, reconY := fun _ y => y, colNorm := id,
        ccaFit := fun _ _ => fun a b => (a, b), corrDiag := fun _ _ => [] }
      { wrapperInit 2 16 10 1 Method.DCCAE true false with
          dataset_means := some [[0], [0]],
          dataset_list_train := some [[[1]], [[1]]] }
      [[[1]], [[1]]] false = .error err :=
  apply_before_fit_errors _ _ _ rfl rfl

/-- `self.train_correlations = self.predict_corr(*args, train=True)` at the end
of `fit` (errors from the call propagate). -/
def fitCorr (ext : Ext) (W2 : WrapperState) (views : List Rows) : Except Err WrapperState :=
  match predict_corr ext W2 views true with
  | .error e => .error e
  | .ok (corrs, W3) => .ok { W3 with train_correlations := corrs }

/-- The `if self.method == 'DCCAE': ... elif self.method == 'DVCCA': ...` tail
of `fit`: fit the train-set alignment for DCCAE, and for DVCCA with both
encoders; otherwise return self unchanged. -/
def fitTail (ext : Ext) (W2 : WrapperState) (views : List Rows) :
    Except Err WrapperState :=
  match W2.method with
  | .DCCAE => fitCorr ext W2 views
  | .DVCCA => if W2.both_encoders then fitCorr ext W2 views else .ok W2
  | .DGCCA => .ok W2

/-- `Wrapper.fit`: partition/center/adjust, construct the model (for `DGCCA`
the referenced module `cca_zoo.DCCA` does not exist — `AttributeError`), run
the epoch loop, then the correlation tail.  `none`: the batch-size loop hangs
and the call never returns. -/
def fit (ext : Ext) (trainLoss valLoss : Nat → ℚ) (W : WrapperState) (perm : List Nat)
    (views : List Rows) : Option (Except Err WrapperState) :=
  match processTrainingDataS W perm views with
  | none => none
  | some W1 =>
    match W1.method with
    | .DGCCA => some (.error .attributeError)
    | _ =>
      some (fitTail ext
        { W1 with model := some (runEpochs W1.patience trainLoss valLoss W1.epoch_num
            (initTrainState W1.latent_dims)).model } views)

/-- The wrapper state after a `fit` call that returned normally. -/
def fitResult (ext : Ext) (trainLoss valLoss : Nat → ℚ) (W : WrapperState) (perm : List Nat)
    (views : List Rows) : Option WrapperState :=
  match fit ext trainLoss valLoss W perm views with
  | some (.ok W1) => some W1
  | _ => none

/-- Encoding half of `transform_view`, after the in-place centering: reads
`self.model`, encodes each supplied (already centered) view with its
view-specific encoder, and column-normalises at the return statements.  The
last two components are the arrays the caller's variables now hold. -/
def transform_encode (ext : Ext) (W : WrapperState) (X1 Y1 : Option Rows) :
    Except Err (Option (Option Lat × Option Lat) × Option Rows × Option Rows) :=
  match X1, Y1 with
  | none, none => .ok (none, none, none)
  | some x, some y =>
    match W.method with
    | .DGCCA => .error .unboundLocalError
    | _ =>
      match W.model with
      | none => .error .attributeError
      | some _ =>
        .ok (some (some (ext.colNorm (x.map ext.enc1)), some (ext.colNorm (y.map ext.enc2))),
          some x, some y)
  | some x, none =>
    match W.method with
    | .DGCCA => .error .unboundLocalError
    | _ =>
      match W.model with
      | none => .error .attributeError
      | some _ => .ok (some (some (ext.colNorm (x.map ext.enc1)), none), some x, none)
  | none, some y =>
    match W.method with
    | .DGCCA => .error .unboundLocalError
    | _ =>
      match W.model with
      | none => .error .attributeError
      | some _ => .ok (some (none, some (ext.colNorm (y.map ext.enc2))), none, some y)

/-- `Wrapper.transform_view`: `X_new -= self.X_mean` / `Y_new -= self.Y_mean`
subtract the (never created) persisted means from the caller's arrays in
place, then encode.  Reading the missing mean attribute raises
`AttributeError`. -/
def transform_view (ext : Ext) (W : WrapperState) (X_new Y_new : Option Rows) :
    Except Err (Option (Option Lat × Option Lat) × Option Rows × Option Rows) :=
  match X_new with
  | some X =>
    match W.X_mean with
    | none => .error .attributeError
    | some mx =>
      match Y_new with
      | some Y =>
        match W.Y_mean with
        | none => .error .attributeError
        | some my => transform_encode ext W (some (centerRows X mx)) (some (centerRows Y my))
      | none => transform_encode ext W (some (centerRows X mx)) none
  | none =>
    match Y_new with
    | some Y =>
      match W.Y_mean with
      | none => .error .attributeError
      | some my => transform_encode ext W none (some (centerRows Y my))
    | none => transform_encode ext W none none

/-- `Wrapper.predict_view`: transform the supplied views, decode through the
other view's decoder; the supplied view is returned as its own prediction —
but it is the array `transform_view` just centered in place. -/
def predict_view (ext : Ext) (W : WrapperState) (X_new Y_new : Option Rows) :
    Except Err ((Rows × Rows) × Option Rows × Option Rows) :=
  match transform_view ext W X_new Y_new with
  | .error e => .error e
  | .ok (res, cx, cy) =>
    match res with
    | none => .error .typeError
    | some (u, v) =>
      match u, v with
      | some uu, none => .ok ((cx.getD [], uu.map ext.dec2), cx, cy)
      | none, some vv => .ok ((vv.map ext.dec1, cy.getD []), cx, cy)
      | some _, some vv => .ok ((vv.map ext.dec1, cy.getD []), cx, cy)
      | none, none => .error .unboundLocalError

/-- Sum of squared entry differences, `F.mse_loss(a, b, reduction='sum')`. -/
def sqDist (a b : Vec) : ℚ := (List.zipWith (fun x y => (x - y) ^ 2) a b).sum

/-- Split a list into consecutive chunks of size `n + 1` (the `DataLoader`
batching; `recon_loss` uses batch size 100). -/
def chunksOf (n : Nat) : List (Vec × Vec) → List (List (Vec × Vec))
  | [] => []
  | x :: xs => (x :: xs.take n) :: chunksOf n (xs.drop n)
termination_by l => l.length
decreasing_by
  simp only [List.length_drop, List.length_cons]
  omega

/-- `Wrapper.recon_loss`: center both views in place with the persisted means,
batch with size 100, run the model forward, and accumulate per-batch
`sum-of-squares / batch_size`.  The last two components are the arrays the
caller's variables now hold. -/
def recon_loss (ext : Ext) (W : WrapperState) (X_new Y_new : Rows) :
    Except Err ((ℚ × ℚ) × Rows × Rows) :=
  match W.X_mean with
  | none => .error .attributeError
  | some mx =>
    let X1 := centerRows X_new mx
    match W.Y_mean with
    | none => .error .attributeError
    | some my =>
      let Y1 := centerRows Y_new my
      match W.model with
      | none => .error .attributeError
      | some _ =>
        match W.method with
        | .DGCCA => .error .unboundLocalError
        | _ =>
          let batches := chunksOf 99 (List.zip X1 Y1)
          let lossx := (batches.map (fun b =>
            (b.map (fun p => sqDist (ext.reconX p.1 p.2) p.1)).sum / (b.length : ℚ))).sum
          let lossy := (batches.map (fun b =>
            (b.map (fun p => sqDist (ext.reconY p.1 p.2) p.2)).sum / (b.length : ℚ))).sum
          .ok ((lossx, lossy), X1, Y1)

/-! ### C8: `fit` never creates `X_mean`, so `transform_view` cannot run -/

/-- `corrStep` leaves `X_mean` unchanged. -/
theorem corrStep_X_mean (ext : Ext) (W W' : WrapperState) (zx zy : Lat) (tr : Bool)
    (c : Option (List ℚ)) (h : corrStep ext W zx zy tr = .ok (c, W')) :
    W'.X_mean = W.X_mean := by
  unfold corrStep at h
  split at h
  · cases h
    rfl
  · split at h
    · exact Except.noConfusion h
    · cases h
      rfl

/-- `predict_corr` leaves `X_mean` unchanged. -/
theorem predict_corr_X_mean (ext : Ext) (W W' : WrapperState) (args : List Rows) (tr : Bool)
    (c : Option (List ℚ)) (h : predict_corr ext W args tr = .ok (c, W')) :
    W'.X_mean = W.X_mean := by
  unfold predict_corr at h
  split at h
  · exact Except.noConfusion h
  · split at h
    · exact Except.noConfusion h
    · split at h
      · split at h
        · exact corrStep_X_mean ext W W' _ _ tr c h
        · split at h
          · exact corrStep_X_mean ext W W' _ _ tr c h
          · cases h
            rfl
        · exact Except.noConfusion h
      · exact Except.noConfusion h

/-- `fitCorr` leaves `X_mean` unchanged. -/
theorem fitCorr_X_mean (ext : Ext) (W2 W' : WrapperState) (views : List Rows)
    (h : fitCorr ext W2 views = .ok W') : W'.X_mean = W2.X_mean := by
  unfold fitCorr at h
  cases hpc : predict_corr ext W2 views true with
  | error e =>
    rw [hpc] at h
    exact Except.noConfusion h
  | ok p =>
    obtain ⟨c, W3⟩ := p
    rw [hpc] at h
    cases h
    exact predict_corr_X_mean ext W2 W3 views true c hpc

/-- The tail of `fit` leaves `X_mean` unchanged. -/
theorem fitTail_X_mean (ext : Ext) (W2 W' : WrapperState) (views : List Rows)
    (h : fitTail ext W2 views = .ok W') : W'.X_mean = W2.X_mean := by
  unfold fitTail at h
  split at h
  · exact fitCorr_X_mean ext W2 W' views h
  · split at h
    · exact fitCorr_X_mean ext W2 W' views h
    · cases h
      rfl
  · cases h
    rfl

/-- `process_training_data` leaves `X_mean` unchanged. -/
theorem processTrainingDataS_X_mean (W W1 : WrapperState) (perm : List Nat) (views : List Rows)
    (h : processTrainingDataS W perm views = some W1) : W1.X_mean = W.X_mean := by
  simp only [processTrainingDataS] at h
  cases hb : (process_training_data views perm W.latent_dims W.batch_size).batch_size with
  | none =>
    rw [hb, Option.map_none'] at h
    exact Option.noConfusion h
  | some b =>
    rw [hb, Option.map_some'] at h
    cases h
    rfl

/-- A normal return of `fit` leaves `X_mean` unchanged: no assignment to
`self.X_mean` exists anywhere in the class. -/
theorem fit_ok_X_mean (ext : Ext) (tL vL : Nat → ℚ) (W W' : WrapperState)
    (perm : List Nat) (views : List Rows)
    (h : fit ext tL vL W perm views = some (.ok W')) : W'.X_mean = W.X_mean := by
  unfold fit at h
  split at h
  · exact Option.noConfusion h
  · rename_i W1 hp
    split at h
    · exact Except.noConfusion (Option.some.inj h)
    · have ht := Option.some.inj h
      have hx := fitTail_X_mean ext _ W' views ht
      rw [hx]
      exact processTrainingDataS_X_mean W W1 perm views hp

/-- Same fact through `fitResult`. -/
theorem fitResult_X_mean (ext : Ext) (tL vL : Nat → ℚ) (W W' : WrapperState)
    (perm : List Nat) (views : List Rows)
    (h : fitResult ext tL vL W perm views = some W') : W'.X_mean = W.X_mean := by
  unfold fitResult at h
  cases hf : fit ext tL vL W perm views with
  | none =>
    rw [hf] at h
    exact Option.noConfusion h
  | some r =>
    cases r with
    | error e =>
      rw [hf] at h
      exact Option.noConfusion h
    | ok W1 =>
      rw [hf] at h
      have h1 : W1 = W' := Option.some.inj h
      rw [← h1]
      exact fit_ok_X_mean ext tL vL W W1 perm views hf

/-- If a view is supplied but the corresponding persisted mean attribute is
missing, `transform_view` raises immediately. -/
theorem transform_view_no_X_mean (ext : Ext) (W : WrapperState) (X : Rows)
    (Y_new : Option Rows) (h : W.X_mean = none) :
    transform_view ext W (some X) Y_new = .error .attributeError := by
  unfold transform_view
  rw [h]

/-- C8: after any `fit` call that returns normally, calling `transform_view`
with view A supplied does not return `(latent_a, None)`: `fit` stores the
per-view means only in `dataset_means`, never in `X_mean`, so the centering
line `X_new -= self.X_mean` raises `AttributeError`. -/
theorem transform_after_fit_attribute_error (ext : Ext) (tL vL : Nat → ℚ)
    (ld bs pat en : Nat) (meth : Method) (be pv : Bool)
    (perm : List Nat) (views : List Rows) (X : Rows) (Y_new : Option Rows)
    (h : (fitResult ext tL vL (wrapperInit ld bs pat en meth be pv) perm views).isSome = true) :
    transform_view ext
      ((fitResult ext tL vL (wrapperInit ld bs pat en meth be pv) perm views).get h)
      (some X) Y_new = .error .attributeError := by
  obtain ⟨W', hW⟩ := Option.isSome_iff_exists.mp h
  have hget : (fitResult ext tL vL (wrapperInit ld bs pat en meth be pv) perm views).get h
      = W' := by
    simp [hW]
  rw [hget]
  apply transform_view_no_X_mean
  rw [fitResult_X_mean ext tL vL _ W' perm views hW]
  rfl

/-- A concrete external environment for witnesses: identity encoders/decoders,
identity normalisation, identity alignment. -/
def extFixture : Ext :=
  { enc1 := id, enc2 := id, dec1 := id, dec2 := id,
    reconX := fun x _ => x, reconY := fun _ y => y, colNorm := id,
    ccaFit := fun _ _ => fun a b => (a, b), corrDiag := fun _ _ => [] }

/-- Witness for C8: a concrete successful DCCAE fit (two 5-sample views),
after which `transform_view` with view A supplied raises. -/
theorem transform_after_fit_attribute_error_witness :
    transform_view extFixture
      ((fitResult extFixture (fun _ => 3) (fun _ => 5)
          (wrapperInit 2 16 10 1 Method.DCCAE true false) [0, 1, 2, 3, 4]
          [[[0], [0], [0], [0], [10]], [[1], [1], [1], [1], [1]]]).get (by decide))
      (some [[1]]) none = .error .attributeError :=
  transform_after_fit_attribute_error extFixture (fun _ => 3) (fun _ => 5) 2 16 10 1
    Method.DCCAE true false [0, 1, 2, 3, 4]
    [[[0], [0], [0], [0], [10]], [[1], [1], [1], [1], [1]]] [[1]] none (by decide)

/-- C10: when the mean attributes are present (the only way the calls get past
the centering lines), `transform_view` and `recon_loss` subtract the stored
mean from the caller's array objects in place — after the call the caller's
variables hold the centered arrays — and `predict_view` returns the centered
array (not the original) as the supplied view's own "prediction". -/
theorem inplace_centering_frame_effect (ext : Ext) (W : WrapperState) (X Y : Rows)
    (mx my : Vec) (v : Nat)
    (hx : W.X_mean = some mx) (hy : W.Y_mean = some my)
    (hm : W.method = Method.DCCAE) (hmod : W.model = some v) :
    (∃ res, transform_view ext W (some X) none
        = .ok (res, some (centerRows X mx), none)) ∧
    (∃ losses, recon_loss ext W X Y
        = .ok (losses, centerRows X mx, centerRows Y my)) ∧
    (∃ ypred, predict_view ext W (some X) none
        = .ok ((centerRows X mx, ypred), some (centerRows X mx), none)) := by
  refine ⟨⟨some (some (ext.colNorm ((centerRows X mx).map ext.enc1)), none), ?_⟩, ?_, ?_⟩
  · simp [transform_view, transform_encode, hx, hm, hmod]
  · exact ⟨_, by
      simp [recon_loss, hx, hy, hm, hmod]
      rfl⟩
  · refine ⟨(ext.colNorm ((centerRows X mx).map ext.enc1)).map ext.dec2, ?_⟩
    simp [predict_view, transform_view, transform_encode, hx, hm, hmod]

/-- Witness for C10: a wrapper with concrete mean attributes `[1]`, `[2]` and a
model; supplied arrays `[[3]]`, `[[4]]` are centered in place. -/
theorem inplace_centering_frame_effect_witness :
    (∃ res, transform_view extFixture
        { wrapperInit 2 16 10 1 Method.DCCAE true false with
            X_mean := some [1], Y_mean := some [2], model := some 1 }
        (some [[3]]) none = .ok (res, some (centerRows [[3]] [1]), none)) ∧
    (∃ losses, recon_loss extFixture
        { wrapperInit 2 16 10 1 Method.DCCAE true false with
            X_mean := some [1], Y_mean := some [2], model := some 1 }
        [[3]] [[4]] = .ok (losses, centerRows [[3]] [1], centerRows [[4]] [2])) ∧
    (∃ ypred, predict_view extFixture
        { wrapperInit 2 16 10 1 Method.DCCAE true false with
            X_mean := some [1], Y_mean := some [2], model := some 1 }
        (some [[3]]) none = .ok ((centerRows [[3]] [1], ypred), some (centerRows [[3]] [1]), none)) :=
  inplace_centering_frame_effect extFixture
    { wrapperInit 2 16 10 1 Method.DCCAE true false with
        X_mean := some [1], Y_mean := some [2], model := some 1 }
    [[3]] [[4]] [1] [2] 1 rfl rfl rfl rfl

end CcaZoo
